import Mathlib

/-!
Shallow embedding of the matlab .mat level-5 decoder (Go package matlab):
the tag reader, payload decoder, element reader, matrix decoder and the
file-level variable registry, together with theorems checking the
specification's claims against this embedding.

Byte streams are lists of naturals (each a Go byte, < 256); readers pass
the remaining stream explicitly.  Go error returns are an `Err` value in
`Except`; Go panics are the distinguished `Err.panicked` constructor so
that fatal aborts stay distinguishable from recoverable format errors.
Recursive decoding (compressed wrappers, cell matrices) is fuel-indexed;
`Err.fuel` marks fuel exhaustion and never arises in the theorems below.
-/

namespace Matlab

/-- A byte stream: each element is one Go byte (a value below 256). -/
abbrev Bytes := List Nat

/-- Resolved file byte order (Go binary.ByteOrder restricted to the two
instances the package compares against). -/
inductive ByteOrder where
  | little
  | big
deriving DecidableEq

/-- Decoder outcome other than success: clean end of input (Go io.EOF),
a returned format error, a Go panic, or fuel exhaustion of the embedding. -/
inductive Err where
  | eof
  | fmtErr (msg : String)
  | panicked (msg : String)
  | fuel

/-- Data type codes, as in the Go constant block (iota numbering). -/
def DTmiINT8 : Nat := 1
def DTmiUINT8 : Nat := 2
def DTmiINT16 : Nat := 3
def DTmiUINT16 : Nat := 4
def DTmiINT32 : Nat := 5
def DTmiUINT32 : Nat := 6
def DTmiSINGLE : Nat := 7
def DTmiDOUBLE : Nat := 9
def DTmiINT64 : Nat := 12
def DTmiUINT64 : Nat := 13
def DTmiMATRIX : Nat := 14
def DTmiCOMPRESSED : Nat := 15
def DTmiUTF8 : Nat := 16
def DTmiUTF16 : Nat := 17
def DTmiUTF32 : Nat := 18

/-- Go DataType.String. -/
def dataTypeName (d : Nat) : String :=
  if d = DTmiINT8 then "miINT8"
  else if d = DTmiUINT8 then "miUINT8"
  else if d = DTmiINT16 then "miINT16"
  else if d = DTmiUINT16 then "miUINT16"
  else if d = DTmiINT32 then "miINT32"
  else if d = DTmiUINT32 then "miUINT32"
  else if d = DTmiSINGLE then "miSINGLE"
  else if d = DTmiDOUBLE then "miDOUBLE"
  else if d = DTmiINT64 then "miINT64"
  else if d = DTmiUINT64 then "miUINT64"
  else if d = DTmiMATRIX then "miMATRIX"
  else if d = DTmiCOMPRESSED then "miCOMPRESSED"
  else if d = DTmiUTF8 then "miUTF8"
  else if d = DTmiUTF16 then "miUTF16"
  else if d = DTmiUTF32 then "miUTF32"
  else "unknown"

/-- The fixed byte widths of Go DataType.NumBytes; `none` for the codes
that fall through to the panic (matrix, compressed, unknown). -/
def numBytesFixed (d : Nat) : Option Nat :=
  if d = DTmiINT8 ∨ d = DTmiUINT8 ∨ d = DTmiUTF8 then some 1
  else if d = DTmiINT16 ∨ d = DTmiUINT16 ∨ d = DTmiUTF16 then some 2
  else if d = DTmiINT32 ∨ d = DTmiUINT32 ∨ d = DTmiUTF32 ∨ d = DTmiSINGLE then some 4
  else if d = DTmiDOUBLE ∨ d = DTmiINT64 ∨ d = DTmiUINT64 then some 8
  else none

/-- Go DataType.NumBytes: fixed width, or the variable-length-type panic. -/
def numBytesE (d : Nat) : Except Err Nat :=
  match numBytesFixed d with
  | some w => .ok w
  | none => .error (.panicked ("Cannot get NumBytes of variable length type: " ++ dataTypeName d))

/-- binary.LittleEndian.Uint16 over two bytes. -/
def leU16b (b0 b1 : Nat) : Nat := b0 + b1 * 256

/-- binary.BigEndian.Uint16 over two bytes. -/
def beU16b (b0 b1 : Nat) : Nat := b0 * 256 + b1

/-- bo.Uint16 over the first two bytes of a slice. -/
def u16at (bo : ByteOrder) (d : Bytes) : Nat :=
  match bo with
  | .little => leU16b (d.getD 0 0) (d.getD 1 0)
  | .big => beU16b (d.getD 0 0) (d.getD 1 0)

/-- bo.Uint32 over the first four bytes of a slice. -/
def u32at (bo : ByteOrder) (d : Bytes) : Nat :=
  match bo with
  | .little => d.getD 0 0 + d.getD 1 0 * 256 + d.getD 2 0 * 65536 + d.getD 3 0 * 16777216
  | .big => d.getD 0 0 * 16777216 + d.getD 1 0 * 65536 + d.getD 2 0 * 256 + d.getD 3 0

/-- bo.Uint64 over the first eight bytes of a slice. -/
def u64at (bo : ByteOrder) (d : Bytes) : Nat :=
  match bo with
  | .little =>
      d.getD 0 0 + d.getD 1 0 * 256 + d.getD 2 0 * 65536 + d.getD 3 0 * 16777216 +
      d.getD 4 0 * 4294967296 + d.getD 5 0 * 1099511627776 +
      d.getD 6 0 * 281474976710656 + d.getD 7 0 * 72057594037927936
  | .big =>
      d.getD 0 0 * 72057594037927936 + d.getD 1 0 * 281474976710656 +
      d.getD 2 0 * 1099511627776 + d.getD 3 0 * 4294967296 +
      d.getD 4 0 * 16777216 + d.getD 5 0 * 65536 + d.getD 6 0 * 256 + d.getD 7 0

/-- Go int8(b): two's-complement reinterpretation of one byte. -/
def toInt8 (n : Nat) : Int := if n < 128 then (n : Int) else (n : Int) - 256

/-- Go int16(v) of a uint16 value. -/
def toInt16 (n : Nat) : Int := if n < 32768 then (n : Int) else (n : Int) - 65536

/-- Go int32(v) of a uint32 value. -/
def toInt32 (n : Nat) : Int := if n < 2147483648 then (n : Int) else (n : Int) - 4294967296

/-- Go int64(v) of a uint64 value. -/
def toInt64 (n : Nat) : Int :=
  if n < 9223372036854775808 then (n : Int) else (n : Int) - 18446744073709551616

/-- Go byte(v) of an int8 value. -/
def int8ToByte (v : Int) : Nat := (v % 256).toNat

/-- Go Flags: logical/complex/global bits of the array-flags word. -/
structure Flags where
  isLogical : Bool
  isComplex : Bool
  isGlobal : Bool

mutual
/-- A decoded scalar (one Go interface value produced by parse/parseContent),
or a nested matrix stored in a cell value list.  Floats are kept as their
IEEE bit patterns, exactly what math.FloatNNfrombits receives. -/
inductive MValue where
  | i8 (v : Int)
  | u8 (v : Nat)
  | i16 (v : Int)
  | u16 (v : Nat)
  | i32 (v : Int)
  | u32 (v : Nat)
  | i64 (v : Int)
  | u64 (v : Nat)
  | single (bits : Nat)
  | double (bits : Nat)
  | rune (v : Nat)
  | matrix (m : Matrix)

/-- Go Matrix: name bytes, flags, class code, dimension vector, value list. -/
inductive Matrix where
  | mk (name : Bytes) (flags : Flags) (cls : Nat) (dims : List Int) (value : List MValue)
end

/-- Matrix.Name. -/
def Matrix.name : Matrix → Bytes
  | .mk n _ _ _ _ => n

/-- Matrix flags field. -/
def Matrix.flags : Matrix → Flags
  | .mk _ f _ _ _ => f

/-- Matrix.Class. -/
def Matrix.cls : Matrix → Nat
  | .mk _ _ c _ _ => c

/-- Matrix.Dimension. -/
def Matrix.dims : Matrix → List Int
  | .mk _ _ _ d _ => d

/-- Matrix value field. -/
def Matrix.value : Matrix → List MValue
  | .mk _ _ _ _ v => v

/-- Go Element: the interface with its three implementations, kept apart
exactly as the source keeps them (small data element with an inline list
value, normal sub element with a single parsed value, matrix). -/
inductive Element where
  | smallDataElement (typ : Nat) (value : List MValue)
  | subElement (typ : Nat) (value : MValue)
  | matrix (m : Matrix)

/-- Element.Type: matrices always report the matrix type code. -/
def Element.type : Element → Nat
  | .smallDataElement t _ => t
  | .subElement t _ => t
  | .matrix _ => DTmiMATRIX

/-- The shape of Element.Value as seen through Go interface values: a list
(small data elements and matrices) or a single scalar (sub elements). -/
inductive GoVal where
  | list (vs : List MValue)
  | one (v : MValue)

/-- Element.Value. -/
def Element.goValue : Element → GoVal
  | .smallDataElement _ v => .list v
  | .subElement _ v => .one v
  | .matrix m => .list m.value

/-- Result of readTag: an already-decoded small data element, or a normal
tag (type code and byte length) whose payload is yet to be read. -/
inductive Tag where
  | small (typ : Nat) (value : List MValue)
  | normal (typ : Nat) (len : Nat)

/-- Embeds Go stdlib utf8.DecodeRune: first code point of a byte slice,
0xFFFD on empty, invalid or truncated input. -/
def decodeRune (d : Bytes) : Nat :=
  match d with
  | [] => 0xFFFD
  | b0 :: rest =>
    if b0 < 0x80 then b0
    else if 0xC2 ≤ b0 ∧ b0 ≤ 0xDF then
      match rest with
      | b1 :: _ =>
          if 0x80 ≤ b1 ∧ b1 ≤ 0xBF then (b0 - 0xC0) * 64 + (b1 - 0x80) else 0xFFFD
      | [] => 0xFFFD
    else if 0xE0 ≤ b0 ∧ b0 ≤ 0xEF then
      match rest with
      | b1 :: b2 :: _ =>
          let lo1 := if b0 = 0xE0 then 0xA0 else 0x80
          let hi1 := if b0 = 0xED then 0x9F else 0xBF
          if lo1 ≤ b1 ∧ b1 ≤ hi1 ∧ 0x80 ≤ b2 ∧ b2 ≤ 0xBF then
            (b0 - 0xE0) * 4096 + (b1 - 0x80) * 64 + (b2 - 0x80)
          else 0xFFFD
      | _ => 0xFFFD
    else if 0xF0 ≤ b0 ∧ b0 ≤ 0xF4 then
      match rest with
      | b1 :: b2 :: b3 :: _ =>
          let lo1 := if b0 = 0xF0 then 0x90 else 0x80
          let hi1 := if b0 = 0xF4 then 0x8F else 0xBF
          if lo1 ≤ b1 ∧ b1 ≤ hi1 ∧ 0x80 ≤ b2 ∧ b2 ≤ 0xBF ∧ 0x80 ≤ b3 ∧ b3 ≤ 0xBF then
            (b0 - 0xF0) * 262144 + (b1 - 0x80) * 4096 + (b2 - 0x80) * 64 + (b3 - 0x80)
          else 0xFFFD
      | _ => 0xFFFD
    else 0xFFFD

/-- Embeds Go stdlib utf16.Decode on a single code unit: surrogate halves
become the replacement character. -/
def utf16DecodeOne (v : Nat) : Nat :=
  if 0xD800 ≤ v ∧ v < 0xE000 then 0xFFFD else v

/-- Go runtime slice/index bounds panic, as parseContent would hit on a
slice shorter than the width it dereferences. -/
def outOfRange : Except Err MValue := .error (.panicked "runtime error: index out of range")

/-- Go parseContent: one scalar decoded from the front of a byte slice,
dispatched on the type code; matrix/compressed/UTF32 panic, unknown codes
return a format error. -/
def parseContent (t : Nat) (bo : ByteOrder) (data : Bytes) : Except Err MValue :=
  if t = DTmiINT8 then
    if data.length < 1 then outOfRange else .ok (.i8 (toInt8 (data.getD 0 0)))
  else if t = DTmiUINT8 then
    if data.length < 1 then outOfRange else .ok (.u8 (data.getD 0 0))
  else if t = DTmiINT16 then
    if data.length < 2 then outOfRange else .ok (.i16 (toInt16 (u16at bo data)))
  else if t = DTmiUINT16 then
    if data.length < 2 then outOfRange else .ok (.u16 (u16at bo data))
  else if t = DTmiINT32 then
    if data.length < 4 then outOfRange else .ok (.i32 (toInt32 (u32at bo data)))
  else if t = DTmiUINT32 then
    if data.length < 4 then outOfRange else .ok (.u32 (u32at bo data))
  else if t = DTmiSINGLE then
    if data.length < 4 then outOfRange else .ok (.single (u32at bo data))
  else if t = DTmiDOUBLE then
    if data.length < 8 then outOfRange else .ok (.double (u64at bo data))
  else if t = DTmiINT64 then
    if data.length < 8 then outOfRange else .ok (.i64 (toInt64 (u64at bo data)))
  else if t = DTmiUINT64 then
    if data.length < 8 then outOfRange else .ok (.u64 (u64at bo data))
  else if t = DTmiMATRIX then .error (.panicked "Should not be parsing matrix here")
  else if t = DTmiUTF8 then .ok (.rune (decodeRune data))
  else if t = DTmiUTF16 then
    if data.length < 2 then outOfRange else .ok (.rune (utf16DecodeOne (u16at bo data)))
  else if t = DTmiUTF32 then .error (.panicked "Not supported")
  else if t = DTmiCOMPRESSED then .error (.panicked "should not be parsing compressed data type here")
  else .error (.fmtErr ("cannot parseContent data type: " ++ dataTypeName t))

/-- Loop body of Go parseMulti: element i onward, k elements remaining;
the Go slice expression data[i*w:(i+1)*w] bounds-panics past the end. -/
def parseMultiGo (t : Nat) (bo : ByteOrder) (data : Bytes) : Nat → Nat → Except Err (List MValue)
  | _, 0 => .ok []
  | i, k + 1 =>
    match numBytesE t with
    | .error e => .error e
    | .ok w =>
      if (i + 1) * w ≤ data.length then
        match parseContent t bo ((data.drop (i * w)).take w) with
        | .error e => .error e
        | .ok v =>
          match parseMultiGo t bo data (i + 1) k with
          | .error e => .error e
          | .ok vs => .ok (v :: vs)
      else .error (.panicked "runtime error: slice bounds out of range")

/-- Go parseMulti: len scalars decoded from consecutive width-sized chunks. -/
def parseMulti (t : Nat) (bo : ByteOrder) (data : Bytes) (len : Nat) : Except Err (List MValue) :=
  parseMultiGo t bo data 0 len

/-- Go readAllBytes over a buffer-backed reader: the read bytes, the
remaining stream, and the error Go would return (io.EOF when nothing could
be read, the short-read format error when only part could). -/
def readAllBytes (p : Nat) (s : Bytes) : (Bytes × Bytes) × Option Err :=
  if p = 0 then (([], s), none)
  else if s.length = 0 then ((List.replicate p 0, s), some Err.eof)
  else if s.length < p then ((List.replicate p 0, []), some (Err.fmtErr "EOF reached with more bytes expected"))
  else ((s.take p, s.drop p), none)

/-- readAllBytes for the callers that propagate its error immediately. -/
def readAllBytesE (p : Nat) (s : Bytes) : Except Err (Bytes × Bytes) :=
  match readAllBytes p s with
  | (v, none) => .ok v
  | (_, some e) => .error e

/-- Go readTag: consume 8 bytes; read the two little-endian 16-bit halves
(length from bytes 2-3, type from bytes 0-1), swap their roles under
big-endian; nonzero length half means a small data element decoded from
the trailing 4 bytes, zero means a normal tag re-read as two 32-bit
fields in the resolved byte order. -/
def readTag (bo : ByteOrder) (s : Bytes) : Except Err (Tag × Bytes) :=
  match readAllBytesE 8 s with
  | .error e => .error e
  | .ok (buf, rest) =>
    let sdeLen0 := leU16b (buf.getD 2 0) (buf.getD 3 0)
    let sdeType0 := leU16b (buf.getD 0 0) (buf.getD 1 0)
    let sdeLen := if bo = ByteOrder.big then sdeType0 else sdeLen0
    let sdeType := if bo = ByteOrder.big then sdeLen0 else sdeType0
    if sdeLen ≠ 0 then
      match numBytesE sdeType with
      | .error e => .error e
      | .ok w =>
        match parseMulti sdeType bo (buf.drop 4) (sdeLen / w) with
        | .error e => .error e
        | .ok content => .ok (.small sdeType content, rest)
    else
      .ok (.normal (u32at bo buf) (u32at bo (buf.drop 4)), rest)

/-- Go padTo64Bit: the number of bytes actually read for a payload of
declared length p, rounded up to the next multiple of 8. -/
def padTo64Bit (p : Nat) : Nat :=
  (p / 8 + (if p % 8 ≠ 0 then 1 else 0)) * 8

/-- The array-name loop over a small data element value: each entry is
cast to int8 (a Go interface cast that panics on any other type) and
re-cast to a byte. -/
def int8ToBytes : List MValue → Except Err Bytes
  | [] => .ok []
  | .i8 v :: rest =>
    match int8ToBytes rest with
    | .error e => .error e
    | .ok bs => .ok (int8ToByte v :: bs)
  | _ :: _ => .error (.panicked "interface conversion: interface is not int8")

/-- Go arrayName: the name bytes, the remaining stream, and the trailing
error of the final padded read (returned alongside the name, as Go does);
hard failures (bad tag, wrong type, casts) are the outer error. -/
def arrayName (bo : ByteOrder) (s : Bytes) : Except Err ((Bytes × Bytes) × Option Err) :=
  match readTag bo s with
  | .error e => .error e
  | .ok (.small _ vals, s1) =>
    match int8ToBytes vals with
    | .error e => .error e
    | .ok ns => .ok ((ns, s1), none)
  | .ok (.normal dt p, s1) =>
    if dt ≠ DTmiINT8 then
      .error (.fmtErr "invalid data type. Expects array name sub element to have type int8")
    else
      match readAllBytes (padTo64Bit p) s1 with
      | ((data, s2), oerr) => .ok ((data.take p, s2), oerr)

/-- The name step of miMatrix: arrayName with its error tolerated exactly
when it is EOF (Go: err != nil && err.Error() != "EOF" fails; on a
tolerated EOF from the tag read the name is empty and nothing was
consumed). -/
def nameStep (bo : ByteOrder) (s : Bytes) : Except Err (Bytes × Bytes) :=
  match arrayName bo s with
  | .error Err.eof => .ok ([], s)
  | .error e => .error e
  | .ok ((nm, s2), none) => .ok (nm, s2)
  | .ok ((nm, s2), some Err.eof) => .ok (nm, s2)
  | .ok ((_, _), some e) => .error e

/-- Go arrayFlags: a normal uint32 tag of length 8, then 8 payload bytes
read as two little-endian 16-bit halves (first and third pair of bytes),
swapped under big-endian; flags from shift-equality tests on the word,
class from its low byte. -/
def arrayFlags (bo : ByteOrder) (s : Bytes) : Except Err ((Flags × Nat) × Bytes) :=
  match readTag bo s with
  | .error e => .error e
  | .ok (tag, s1) =>
    let dtp : Nat × Nat := match tag with
      | .small _ _ => (0, 0)
      | .normal dt p => (dt, p)
    if dtp.1 ≠ DTmiUINT32 then
      .error (.fmtErr "invalid matrix, the array flags sub element in a matrix should have tag of type miUINT32")
    else if dtp.2 ≠ 8 then
      .error (.fmtErr "invalid matrix, the size of array tag should be 8 bytes")
    else
      match readAllBytesE 8 s1 with
      | .error e => .error e
      | .ok (buf, s2) =>
        let fc0 := leU16b (buf.getD 0 0) (buf.getD 1 0)
        let nzm0 := leU16b (buf.getD 4 0) (buf.getD 5 0)
        let fc := if bo = ByteOrder.big then nzm0 else fc0
        let flags : Flags :=
          { isLogical := fc >>> 9 = 1
            isComplex := fc >>> 11 = 1
            isGlobal := fc >>> 10 = 1 }
        .ok ((flags, fc % 256), s2)

/-- Go dimensionsArray: a normal int32 tag, a padded payload read, and
p / 4 signed 32-bit dimensions decoded in stream order. -/
def dimensionsArray (bo : ByteOrder) (s : Bytes) : Except Err (List Int × Bytes) :=
  match readTag bo s with
  | .error e => .error e
  | .ok (tag, s1) =>
    let dtp : Nat × Nat := match tag with
      | .small _ _ => (0, 0)
      | .normal dt p => (dt, p)
    if dtp.1 ≠ DTmiINT32 then
      .error (.fmtErr "invalid data type. Expects dimension sub element to have type int32")
    else
      match readAllBytesE (padTo64Bit dtp.2) s1 with
      | .error e => .error e
      | .ok (buf, s2) =>
        .ok ((List.range (dtp.2 / 4)).map (fun i => toInt32 (u32at bo (buf.drop (4 * i)))), s2)

/-- Go readNumericalData: a tag whose zero length returns the small element
as-is (nil when the tag was a zero-length normal tag), otherwise an
unpadded payload read decoded as numBytes / width scalars. -/
def readNumericalData (bo : ByteOrder) (s : Bytes) : Except Err (Option Element × Bytes) :=
  match readTag bo s with
  | .error e => .error e
  | .ok (.small typ vals, s1) => .ok (some (.smallDataElement typ vals), s1)
  | .ok (.normal dt p, s1) =>
    if p = 0 then .ok (none, s1)
    else
      match readAllBytesE p s1 with
      | .error e => .error e
      | .ok (data, s2) =>
        match numBytesE dt with
        | .error e => .error e
        | .ok w =>
          match parseMulti dt bo data (p / w) with
          | .error e => .error e
          | .ok multi => .ok (some (.smallDataElement dt multi), s2)

/-- The pr.Value().([]interface) cast at the end of miMatrix: nil element
and single-valued sub elements panic, list-shaped values succeed. -/
def elemValueList : Option Element → Except Err (List MValue)
  | none => .error (.panicked "runtime error: invalid memory address or nil pointer dereference")
  | some (.smallDataElement _ v) => .ok v
  | some (.subElement _ _) => .error (.panicked "interface conversion: interface is not a slice")
  | some (.matrix m) => .ok m.value

/-- The cell loop of miMatrix: each recursively read element is cast to a
matrix, a Go interface cast that panics on anything else. -/
def castMatrices : List Element → Except Err (List MValue)
  | [] => .ok []
  | .matrix m :: es =>
    match castMatrices es with
    | .error e => .error e
    | .ok rest => .ok (.matrix m :: rest)
  | _ :: _ => .error (.panicked "interface conversion: Element is not Matrix")

/-- The complex step of miMatrix: the imaginary part is read and discarded,
its error tolerated exactly when it is EOF. -/
def complexStep (bo : ByteOrder) (s : Bytes) : Except Err Unit :=
  match readNumericalData bo s with
  | .error Err.eof => .ok ()
  | .error e => .error e
  | .ok _ => .ok ()

/-- MATLAB array classes, as in the Go constant block. -/
def mxCELL : Nat := 1
def mxSTRUCT : Nat := 2
def mxOBJECT : Nat := 3
def mxCHAR : Nat := 4
def mxSPARSE : Nat := 5
def mxDOUBLE : Nat := 6

/-- Modelled from the spec: the zlib decompressor is code outside this
repository; it is an abstract parameter turning the raw compressed bytes
into the inflated byte stream, failing as the zlib reader would. -/
abbrev Inflate := Bytes → Except Err Bytes

mutual
/-- Go readElement: read a tag; a small data element is returned as-is;
a compressed tag reads its raw bytes, inflates them, recursively reads all
elements and requires exactly one; a matrix tag reads exactly its length
and hands it to miMatrix; anything else reads a padded payload and parses
a single content value. -/
def readElement : Nat → Inflate → ByteOrder → Bytes → Except Err (Element × Bytes)
  | 0, _, _, _ => .error Err.fuel
  | f + 1, infl, bo, s =>
    match readTag bo s with
    | .error e => .error e
    | .ok (.small typ vals, s1) => .ok (.smallDataElement typ vals, s1)
    | .ok (.normal dt p, s1) =>
      if dt = DTmiCOMPRESSED then
        match readAllBytesE p s1 with
        | .error e => .error e
        | .ok (buf, s2) =>
          match infl buf with
          | .error e => .error e
          | .ok inflated =>
            match readAllElements f infl bo inflated with
            | .error e => .error e
            | .ok [e] => .ok (e, s2)
            | .ok _ => .error (.panicked "This library assumes compressed elements have exactly one sub element")
      else if dt = DTmiMATRIX then
        match readAllBytesE p s1 with
        | .error e => .error e
        | .ok (data, s2) =>
          match miMatrix f infl bo data with
          | .error e => .error e
          | .ok m => .ok (.matrix m, s2)
      else
        match readAllBytesE (padTo64Bit p) s1 with
        | .error e => .error e
        | .ok (buf, s2) =>
          match parseContent dt bo buf with
          | .error e => .error e
          | .ok content => .ok (.subElement dt content, s2)

/-- Go readAllElements: loop readElement until an error whose message is
EOF, which ends the stream cleanly; every other error propagates. -/
def readAllElements : Nat → Inflate → ByteOrder → Bytes → Except Err (List Element)
  | 0, _, _, _ => .error Err.fuel
  | f + 1, infl, bo, s =>
    match readElement f infl bo s with
    | .error Err.eof => .ok []
    | .error e => .error e
    | .ok (el, s1) =>
      match readAllElements f infl bo s1 with
      | .error e => .error e
      | .ok rest => .ok (el :: rest)

/-- Go miMatrix: array flags, dimensions, tolerated name, then the
class-specific value: sparse/struct/object panic, cell recursively reads
elements that must all be matrices, every other class reads one numeric
sub element (plus a discarded imaginary part when complex). -/
def miMatrix : Nat → Inflate → ByteOrder → Bytes → Except Err Matrix
  | 0, _, _, _ => .error Err.fuel
  | f + 1, infl, bo, data =>
    match arrayFlags bo data with
    | .error e => .error e
    | .ok ((flags, cls), r1) =>
      match dimensionsArray bo r1 with
      | .error e => .error e
      | .ok (dim, r2) =>
        match nameStep bo r2 with
        | .error e => .error e
        | .ok (name, r3) =>
          if cls = mxSPARSE then .error (.panicked "Sparse matrix unsupported")
          else if cls = mxCELL then
            match readAllElements f infl bo r3 with
            | .error e => .error e
            | .ok els =>
              match castMatrices els with
              | .error e => .error e
              | .ok res => .ok (.mk name flags cls dim res)
          else if cls = mxSTRUCT then .error (.panicked "Struct matrix unsupported")
          else if cls = mxOBJECT then .error (.panicked "Object matrix unsupported")
          else
            match readNumericalData bo r3 with
            | .error e => .error e
            | .ok (pr, r4) =>
              match (if flags.isComplex then complexStep bo r4 else .ok ()) with
              | .error e => .error e
              | .ok () =>
                match elemValueList pr with
                | .error e => .error e
                | .ok res => .ok (.mk name flags cls dim res)
end

/-- Go File, restricted to the fields the decode path touches: the resolved
byte order, the remaining byte source, the read-state flag and the
name-to-matrix registry. -/
structure FileState where
  endianess : ByteOrder
  r : Bytes
  hasReadAll : Bool
  vars : List (Bytes × Matrix)

/-- Go map insertion f.vars[name] = m: overwrite the existing key or add. -/
def insertVar (m : List (Bytes × Matrix)) (k : Bytes) (v : Matrix) : List (Bytes × Matrix) :=
  match m with
  | [] => [(k, v)]
  | (k2, v2) :: rest => if k2 = k then (k, v) :: rest else (k2, v2) :: insertVar rest k v

/-- Go map lookup with its found flag. -/
def lookupVar (m : List (Bytes × Matrix)) (k : Bytes) : Option Matrix × Bool :=
  match m with
  | [] => (none, false)
  | (k2, v2) :: rest => if k2 = k then (some v2, true) else lookupVar rest k

/-- The registration loop of readAll: every top-level element must report
the matrix type (else the library-assumption panic), is cast to a matrix,
and registered under its name. -/
def registerVars : List Element → List (Bytes × Matrix) → Except Err (List (Bytes × Matrix))
  | [], vars => .ok vars
  | e :: es, vars =>
    if e.type ≠ DTmiMATRIX then
      .error (.panicked "This library assumes top level elements are either Matrix or Compressed. Please file an issue")
    else
      match e with
      | .matrix mx => registerVars es (insertVar vars mx.name mx)
      | _ => .error (.panicked "interface conversion: Element is not Matrix")

/-- Go File.readAll: a no-op once hasReadAll is set; otherwise it sets the
flag first, decodes the whole stream and registers the matrices.  The
returned pair is the new file state and the error Go would return. -/
def readAll (fuel : Nat) (infl : Inflate) (f : FileState) : FileState × Option Err :=
  if f.hasReadAll then (f, none)
  else
    let f1 : FileState := { f with hasReadAll := true }
    match readAllElements fuel infl f.endianess f.r with
    | .error e => (f1, some e)
    | .ok els =>
      match registerVars els f1.vars with
      | .error e => (f1, some e)
      | .ok vars => ({ f1 with vars := vars }, none)

/-- Go File.GetVar: trigger readAll on first use; a returned error gives
(nil, false), while panics (and fuel exhaustion of the embedding)
propagate as the aborts they are; then look the name up. -/
def GetVar (fuel : Nat) (infl : Inflate) (f : FileState) (name : Bytes) :
    Except Err ((Option Matrix × Bool) × FileState) :=
  if f.hasReadAll then .ok (lookupVar f.vars name, f)
  else
    match readAll fuel infl f with
    | (f1, none) => .ok (lookupVar f1.vars name, f1)
    | (_, some (Err.panicked m)) => .error (.panicked m)
    | (_, some Err.fuel) => .error Err.fuel
    | (f1, some _) => .ok ((none, false), f1)

/-- The byte-order resolution step of Go readHeader (lines 213-220): the
4-byte flag field's bytes 2-3 as a marker, MI selecting big-endian and IM
little-endian, anything else a format error. -/
def resolveByteOrder (buf : Bytes) : Except Err ByteOrder :=
  let marker := (buf.drop 2).take 2
  if marker = [77, 73] then .ok .big
  else if marker = [73, 77] then .ok .little
  else .error (.fmtErr "invalid byte order setting")

/-- Identity stand-in for the zlib inflater, used on inputs whose decoding
never reaches a compressed element. -/
def inflId : Inflate := fun b => .ok b

/-- Constant inflater used to exercise the compressed path on a concrete
input: inflates anything to one small int8 element carrying the value 7. -/
def inflC : Inflate := fun _ => .ok [1, 0, 1, 0, 7, 0, 0, 0]

/-- Whether a matrix decode returned a value at all. -/
def decodeSucceeded : Except Err Matrix → Bool
  | .ok _ => true
  | .error _ => false

/-- Test stream: one normal matrix element, class double, name R, value 7. -/
def streamR : Bytes :=
  [14,0,0,0,48,0,0,0,
   6,0,0,0,8,0,0,0, 6,0,0,0,0,0,0,0,
   5,0,0,0,8,0,0,0, 1,0,0,0,1,0,0,0,
   1,0,1,0, 82,0,0,0,
   1,0,1,0, 7,0,0,0]

/-- The matrix decoded from streamR. -/
def matR : Matrix := .mk [82] ⟨false, false, false⟩ 6 [1, 1] [.i8 7]

/-- The unread file over streamR. -/
def fileR0 : FileState := ⟨.little, streamR, false, []⟩

/-- The file over streamR after its full-decode pass. -/
def fileR1 : FileState := ⟨.little, streamR, true, [([82], matR)]⟩

theorem padTo64Bit_ceil (p : Nat) : padTo64Bit p = ((p + 7) / 8) * 8 := by
  unfold padTo64Bit; split <;> omega

theorem readAllBytesE_ok_iff {p : Nat} {s : Bytes} {r : Bytes × Bytes} :
    readAllBytesE p s = .ok r ↔ p ≤ s.length ∧ r = (s.take p, s.drop p) := by
  unfold readAllBytesE readAllBytes
  split_ifs with h1 h2 h3
  · subst h1
    simp [eq_comm]
  · simp only [reduceCtorEq, false_iff, not_and]
    intro hle
    omega
  · simp only [reduceCtorEq, false_iff, not_and]
    intro hle
    omega
  · simp only [Except.ok.injEq]
    constructor
    · rintro rfl
      exact ⟨by omega, rfl⟩
    · rintro ⟨_, rfl⟩
      rfl

theorem readAllBytesE_append {p : Nat} (buf rest : Bytes) (h : buf.length = p) :
    readAllBytesE p (buf ++ rest) = .ok (buf, rest) := by
  refine readAllBytesE_ok_iff.mpr ⟨by simp [← h], ?_⟩
  subst h
  simp

theorem numBytesE_error (d : Nat) (e : Err) (h : numBytesE d = .error e) :
    ∃ msg, e = .panicked msg := by
  unfold numBytesE at h
  cases hnb : numBytesFixed d <;> rw [hnb] at h
  · exact ⟨_, (Except.error.inj h).symm⟩
  · exact absurd h (by simp)

/-- C1: an 8-byte tag is parsed as two little-endian 16-bit halves, bytes
0-1 the type and bytes 2-3 the length, their roles swapped under
big-endian; a nonzero length half yields a small element typed by the
other half with length / width scalars decoded from the trailing 4 bytes
and nothing further consumed; a zero length half yields a normal tag whose
type and length are bytes 0-3 and 4-7 as 32-bit values in the resolved
byte order, with no payload consumed. -/
theorem readTag_halves_and_dispatch
    (bo : ByteOrder) (buf rest : Bytes) (t0 l0 typH lenH : Nat)
    (h8 : buf.length = 8)
    (ht0 : t0 = leU16b (buf.getD 0 0) (buf.getD 1 0))
    (hl0 : l0 = leU16b (buf.getD 2 0) (buf.getD 3 0))
    (htyp : typH = if bo = ByteOrder.big then l0 else t0)
    (hlen : lenH = if bo = ByteOrder.big then t0 else l0) :
    (∀ w content, lenH ≠ 0 → numBytesE typH = .ok w →
        parseMulti typH bo (buf.drop 4) (lenH / w) = .ok content →
        readTag bo (buf ++ rest) = .ok (.small typH content, rest)) ∧
    (lenH = 0 →
        readTag bo (buf ++ rest) = .ok (.normal (u32at bo buf) (u32at bo (buf.drop 4)), rest)) := by
  subst ht0 hl0 htyp hlen
  have hb := readAllBytesE_append (p := 8) buf rest h8
  constructor
  · intro w content hne hw hpm
    simp only [readTag, hb]
    rw [if_pos hne]
    simp only [hw, hpm]
  · intro hz
    simp only [readTag, hb]
    rw [if_neg (by simpa using hz)]

/-- C1 witness: a concrete little-endian small tag of type int8, length 2. -/
theorem readTag_small_element_example :
    readTag .little ([1,0,2,0,5,6,0,0] ++ []) = .ok (.small 1 [.i8 5, .i8 6], []) :=
  (readTag_halves_and_dispatch .little [1,0,2,0,5,6,0,0] [] 1 2 1 2 rfl rfl rfl rfl rfl).1
    1 [.i8 5, .i8 6] (by decide) rfl rfl
/-- C2 counterexample: a normal little-endian int16 element of declared
length 4 whose padded payload holds the scalars 1 and 2.  The element
reader decodes a single scalar (the first two bytes) via one parseContent
call, not the per-chunk sequence of length / width scalars the claim
describes. -/
theorem readElement_default_single_scalar :
    readElement 1 inflId .little [3,0,0,0,4,0,0,0,1,0,2,0,0,0,0,0] =
      .ok (.subElement 3 (.i16 1), []) ∧
    (Element.subElement 3 (.i16 1)).goValue ≠ GoVal.list [.i16 1, .i16 2] :=
  ⟨rfl, by simp [Element.goValue]⟩

/-- C2 amended: a normal element that is neither matrix nor compressed
consumes exactly ceil(length / 8) * 8 payload bytes and decodes them by a
single parseContent application over the whole padded buffer (one scalar
from its leading bytes), not one scalar per width-sized chunk. -/
theorem readElement_default_padded_single_parse
    (f : Nat) (infl : Inflate) (bo : ByteOrder) (s s1 buf s2 : Bytes) (dt p : Nat) (v : MValue)
    (htag : readTag bo s = .ok (.normal dt p, s1))
    (hc : dt ≠ DTmiCOMPRESSED) (hm : dt ≠ DTmiMATRIX)
    (hread : readAllBytesE (padTo64Bit p) s1 = .ok (buf, s2))
    (hparse : parseContent dt bo buf = .ok v) :
    readElement (f + 1) infl bo s = .ok (.subElement dt v, s2) ∧
    buf = s1.take (padTo64Bit p) ∧ s2 = s1.drop (padTo64Bit p) ∧
    padTo64Bit p ≤ s1.length ∧ padTo64Bit p = ((p + 7) / 8) * 8 := by
  have hok := readAllBytesE_ok_iff.mp hread
  refine ⟨?_, ?_, ?_, hok.1, padTo64Bit_ceil p⟩
  · simp only [readElement, htag]
    rw [if_neg hc, if_neg hm]
    simp only [hread, hparse]
  · exact congrArg Prod.fst hok.2
  · exact congrArg Prod.snd hok.2

/-- C2 witness: the amended statement at the concrete int16 element. -/
theorem readElement_default_padded_example :
    readElement 1 inflId .little [3,0,0,0,4,0,0,0,1,0,2,0,0,0,0,0] =
      .ok (.subElement 3 (.i16 1), []) ∧
    [1,0,2,0,0,0,0,0] = List.take (padTo64Bit 4) [1,0,2,0,0,0,0,0] ∧
    ([] : Bytes) = List.drop (padTo64Bit 4) [1,0,2,0,0,0,0,0] ∧
    padTo64Bit 4 ≤ ([1,0,2,0,0,0,0,0] : Bytes).length ∧
    padTo64Bit 4 = ((4 + 7) / 8) * 8 :=
  readElement_default_padded_single_parse 0 inflId .little
    [3,0,0,0,4,0,0,0,1,0,2,0,0,0,0,0] [1,0,2,0,0,0,0,0] [1,0,2,0,0,0,0,0] [] 3 4 (.i16 1)
    rfl (by decide) (by decide) rfl rfl
/-- C3: at the concrete array-flags word 0x0E06 (bits 9, 10 and 11 all
set, class byte 6) the extraction yields isLogical = false and
isGlobal = false even though bits 9 and 10 are set, because the code
tests flagsAndClass >> n == 1 instead of masking bit n; only the complex
flag and the class byte come out as the specification describes. -/
theorem arrayFlags_flag_extraction_bug :
    arrayFlags .little ([6,0,0,0,8,0,0,0] ++ [6,14,0,0,0,0,0,0]) =
      .ok (({ isLogical := false, isComplex := true, isGlobal := false }, 6), []) ∧
    leU16b 6 14 = 3590 ∧
    Nat.testBit 3590 9 = true ∧
    Nat.testBit 3590 10 = true ∧
    Nat.testBit 3590 11 = true :=
  ⟨rfl, rfl, by decide, by decide, by decide⟩

/-- C4: a compressed element of declared length p reads exactly p raw
bytes, inflates them, recursively reads all elements of the inflated
stream, emits the sole element when there is exactly one, and fails with
the library-assumption panic when the inflated stream holds any other
number of elements. -/
theorem readElement_compressed_single
    (f : Nat) (infl : Inflate) (bo : ByteOrder) (s s1 buf s2 inflated : Bytes) (p : Nat)
    (els : List Element)
    (htag : readTag bo s = .ok (.normal DTmiCOMPRESSED p, s1))
    (hread : readAllBytesE p s1 = .ok (buf, s2))
    (hinfl : infl buf = .ok inflated)
    (hels : readAllElements f infl bo inflated = .ok els) :
    (∀ e, els = [e] → readElement (f + 1) infl bo s = .ok (e, s2)) ∧
    (els.length ≠ 1 → readElement (f + 1) infl bo s =
        .error (.panicked "This library assumes compressed elements have exactly one sub element")) ∧
    buf = s1.take p ∧ s2 = s1.drop p ∧ p ≤ s1.length := by
  have hok := readAllBytesE_ok_iff.mp hread
  refine ⟨?_, ?_, congrArg Prod.fst hok.2, congrArg Prod.snd hok.2, hok.1⟩
  · rintro e rfl
    simp only [readElement, htag]
    rw [if_pos trivial]
    simp only [hread, hinfl, hels]
  · intro hne
    simp only [readElement, htag]
    rw [if_pos trivial]
    simp only [hread, hinfl, hels]
    match els, hne with
    | [], _ => rfl
    | [e], h => exact absurd rfl h
    | e :: e2 :: r, _ => rfl

/-- C4 witness: a compressed element whose inflated bytes decode to one
small int8 element carrying 7. -/
theorem readElement_compressed_example :
    readElement 4 inflC .little [15,0,0,0,0,0,0,0] = .ok (.smallDataElement 1 [.i8 7], []) :=
  (readElement_compressed_single 3 inflC .little [15,0,0,0,0,0,0,0] [] [] [] [1,0,1,0,7,0,0,0]
    0 [.smallDataElement 1 [.i8 7]] rfl rfl rfl rfl).1 _ rfl
theorem castMatrices_map (ms : List Matrix) :
    castMatrices (ms.map Element.matrix) = .ok (ms.map MValue.matrix) := by
  induction ms with
  | nil => rfl
  | cons m ms ih => simp [castMatrices, ih]

theorem castMatrices_nonmatrix (els : List Element)
    (h : ∃ e ∈ els, ∀ m, e ≠ Element.matrix m) :
    ∃ msg, castMatrices els = .error (.panicked msg) := by
  induction els with
  | nil =>
    rcases h with ⟨e, he, _⟩
    cases he
  | cons e es ih =>
    rcases h with ⟨e2, he2, hne⟩
    rcases List.mem_cons.mp he2 with rfl | hmem
    · cases e2 with
      | matrix m => exact absurd rfl (hne m)
      | smallDataElement t v => exact ⟨_, rfl⟩
      | subElement t v => exact ⟨_, rfl⟩
    · cases e with
      | matrix m =>
        rcases ih ⟨e2, hmem, hne⟩ with ⟨msg, hmsg⟩
        exact ⟨msg, by simp [castMatrices, hmsg]⟩
      | smallDataElement t v => exact ⟨_, rfl⟩
      | subElement t v => exact ⟨_, rfl⟩

/-- C5: a cell-class matrix runs the element reader over the remaining
payload bytes; when every resulting element is a matrix the decoded value
is exactly that ordered sequence of matrices, and when any element is not
a matrix the decode aborts with the interface-cast panic. -/
theorem miMatrix_cell_children
    (f : Nat) (infl : Inflate) (bo : ByteOrder) (data r1 r2 r3 name : Bytes)
    (flags : Flags) (dim : List Int) (els : List Element)
    (hflags : arrayFlags bo data = .ok ((flags, mxCELL), r1))
    (hdim : dimensionsArray bo r1 = .ok (dim, r2))
    (hname : nameStep bo r2 = .ok (name, r3))
    (hels : readAllElements f infl bo r3 = .ok els) :
    (∀ (ms : List Matrix), els = ms.map Element.matrix →
        miMatrix (f + 1) infl bo data = .ok (.mk name flags mxCELL dim (ms.map MValue.matrix))) ∧
    ((∃ e ∈ els, ∀ m, e ≠ Element.matrix m) →
        ∃ msg, miMatrix (f + 1) infl bo data = .error (.panicked msg)) := by
  constructor
  · rintro ms rfl
    simp only [miMatrix, hflags, hdim, hname, hels]
    rw [if_neg (by decide), if_pos trivial]
    simp only [castMatrices_map]
  · intro hne
    rcases castMatrices_nonmatrix els hne with ⟨msg, hmsg⟩
    refine ⟨msg, ?_⟩
    simp only [miMatrix, hflags, hdim, hname, hels]
    rw [if_neg (by decide), if_pos trivial]
    simp only [hmsg]

/-- C5 witness: a cell matrix whose payload ends after the name, so the
recursion yields the empty ordered sequence of nested matrices. -/
theorem miMatrix_cell_example :
    miMatrix 3 inflId .little
      ([6,0,0,0,8,0,0,0, 1,0,0,0,0,0,0,0] ++
       ([5,0,0,0,8,0,0,0, 1,0,0,0,1,0,0,0] ++ [1,0,1,0, 65,0,0,0])) =
      .ok (.mk [65] ⟨false, false, false⟩ mxCELL [1, 1] (([] : List Matrix).map MValue.matrix)) := by
  have hflags : arrayFlags .little
      ([6,0,0,0,8,0,0,0, 1,0,0,0,0,0,0,0] ++
       ([5,0,0,0,8,0,0,0, 1,0,0,0,1,0,0,0] ++ [1,0,1,0, 65,0,0,0])) =
      .ok ((⟨false, false, false⟩, mxCELL),
        [5,0,0,0,8,0,0,0, 1,0,0,0,1,0,0,0] ++ [1,0,1,0, 65,0,0,0]) := rfl
  have hdim : dimensionsArray .little
      ([5,0,0,0,8,0,0,0, 1,0,0,0,1,0,0,0] ++ [1,0,1,0, 65,0,0,0]) =
      .ok ([1,1], [1,0,1,0, 65,0,0,0]) := rfl
  have hname : nameStep .little [1,0,1,0, 65,0,0,0] = .ok (([65] : Bytes), ([] : Bytes)) := rfl
  have hels : readAllElements 2 inflId .little [] = .ok [] := rfl
  exact (miMatrix_cell_children 2 inflId .little _ _ _ _ _ _ _ _ hflags hdim hname hels).1 [] rfl
/-- C6: a matrix element whose array-flags class byte is struct, object or
sparse never decodes to a Matrix value: whatever happens in the remaining
sub-element reads, miMatrix returns an error (the unsupported-class panic
when reached) and never a populated Matrix. -/
theorem miMatrix_unsupported_class_fails
    (fuel : Nat) (infl : Inflate) (bo : ByteOrder) (data r1 : Bytes) (flags : Flags) (cls : Nat)
    (hflags : arrayFlags bo data = .ok ((flags, cls), r1))
    (hcls : cls = mxSTRUCT ∨ cls = mxOBJECT ∨ cls = mxSPARSE) :
    decodeSucceeded (miMatrix fuel infl bo data) = false := by
  cases fuel with
  | zero => rfl
  | succ f =>
    simp only [miMatrix, hflags]
    cases hd : dimensionsArray bo r1 with
    | error e => simp [hd, decodeSucceeded]
    | ok pr =>
      obtain ⟨dim, r2⟩ := pr
      cases hn : nameStep bo r2 with
      | error e => simp [hd, hn, decodeSucceeded]
      | ok nmr =>
        obtain ⟨name, r3⟩ := nmr
        rcases hcls with rfl | rfl | rfl <;>
          simp [hd, hn, mxSTRUCT, mxOBJECT, mxSPARSE, mxCELL, decodeSucceeded]

/-- C6 witness: a matrix whose array flags carry the struct class fails. -/
theorem miMatrix_struct_class_example :
    decodeSucceeded (miMatrix 1 inflId .little [6,0,0,0,8,0,0,0, 2,0,0,0,0,0,0,0]) = false :=
  miMatrix_unsupported_class_fails 1 inflId .little [6,0,0,0,8,0,0,0, 2,0,0,0,0,0,0,0] []
    ⟨false, false, false⟩ 2 rfl (Or.inl rfl)
/-- C7 counterexample: a lookup over a 3-byte stream fails its full-decode
pass (the tag read is a short read), yet the resulting file state has
hasReadAll = true: the registry is left in the read state, not the unread
state the claim describes. -/
theorem getVar_failed_lookup_marks_read :
    GetVar 2 inflId ⟨.little, [1, 2, 3], false, []⟩ [] =
      .ok ((none, false), ⟨.little, [1, 2, 3], true, []⟩) ∧
    (FileState.mk .little [1, 2, 3] true []).hasReadAll ≠ false :=
  ⟨rfl, by simp⟩

/-- C7 amended: a failed full-decode pass adds no entries to the
name-to-matrix mapping and leaves the byte source field untouched, but it
marks the file as already fully read (the flag is set before decoding),
so the failed pass is never retried. -/
theorem readAll_failure_state (fuel : Nat) (infl : Inflate) (f f1 : FileState) (e : Err)
    (hun : f.hasReadAll = false)
    (hfail : readAll fuel infl f = (f1, some e)) :
    f1.hasReadAll = true ∧ f1.vars = f.vars ∧ f1.r = f.r ∧ f1.endianess = f.endianess := by
  unfold readAll at hfail
  rw [hun] at hfail
  simp only [Bool.false_eq_true, if_false] at hfail
  cases he : readAllElements fuel infl f.endianess f.r with
  | error e2 =>
    simp only [he, Prod.mk.injEq] at hfail
    obtain ⟨rfl, -⟩ := hfail
    simp
  | ok els =>
    simp only [he] at hfail
    cases hr : registerVars els f.vars with
    | error e2 =>
      simp only [hr, Prod.mk.injEq] at hfail
      obtain ⟨rfl, -⟩ := hfail
      simp
    | ok vars2 =>
      simp only [hr, Prod.mk.injEq] at hfail
      exact absurd hfail.2 (by simp)

/-- C7 witness: the amended statement at the failing 3-byte stream. -/
theorem readAll_failure_state_example :
    (FileState.mk .little [1, 2, 3] true []).hasReadAll = true ∧
    (FileState.mk .little [1, 2, 3] true []).vars = (FileState.mk .little [1, 2, 3] false []).vars ∧
    (FileState.mk .little [1, 2, 3] true []).r = (FileState.mk .little [1, 2, 3] false []).r ∧
    (FileState.mk .little [1, 2, 3] true []).endianess =
      (FileState.mk .little [1, 2, 3] false []).endianess :=
  readAll_failure_state 2 inflId ⟨.little, [1, 2, 3], false, []⟩ ⟨.little, [1, 2, 3], true, []⟩
    (.fmtErr "EOF reached with more bytes expected") rfl rfl
theorem readAll_flag_of_unread (fuel : Nat) (infl : Inflate) (f : FileState)
    (h : f.hasReadAll = false) : ((readAll fuel infl f).1).hasReadAll = true := by
  unfold readAll
  simp only [h, Bool.false_eq_true, if_false]
  split
  · rfl
  · split
    · rfl
    · rfl

/-- C8: any successful lookup leaves the file in the read state, from
which readAll is a no-op for any fuel and inflater (the decode pass runs
at most once), and every later lookup is a pure query of the cached
mapping: it returns the same value for the same name, leaves the state
unchanged, and is independent of the remaining byte source. -/
theorem getVar_idempotent
    (fuel : Nat) (infl : Inflate) (f : FileState) (name : Bytes)
    (res : Option Matrix × Bool) (f1 : FileState)
    (h : GetVar fuel infl f name = .ok (res, f1)) :
    f1.hasReadAll = true ∧
    (∀ fuel2 infl2, readAll fuel2 infl2 f1 = (f1, none)) ∧
    (∀ fuel2 infl2 name2 r2,
        GetVar fuel2 infl2 { f1 with r := r2 } name2 =
          .ok (lookupVar f1.vars name2, { f1 with r := r2 })) ∧
    (∀ fuel2 infl2 name2, GetVar fuel2 infl2 f1 name2 = .ok (lookupVar f1.vars name2, f1)) := by
  have hflag : f1.hasReadAll = true := by
    unfold GetVar at h
    cases hf : f.hasReadAll with
    | true =>
      simp only [hf, if_true, Except.ok.injEq, Prod.mk.injEq] at h
      obtain ⟨-, rfl⟩ := h
      exact hf
    | false =>
      simp only [hf, Bool.false_eq_true, if_false] at h
      cases hra : readAll fuel infl f with
      | mk g oe =>
        have hg : g.hasReadAll = true := by
          have := readAll_flag_of_unread fuel infl f hf
          rw [hra] at this
          exact this
        cases oe with
        | none =>
          simp only [hra, Except.ok.injEq, Prod.mk.injEq] at h
          obtain ⟨-, rfl⟩ := h
          exact hg
        | some e =>
          cases e with
          | eof =>
            simp only [hra, Except.ok.injEq, Prod.mk.injEq] at h
            obtain ⟨-, rfl⟩ := h
            exact hg
          | fmtErr m =>
            simp only [hra, Except.ok.injEq, Prod.mk.injEq] at h
            obtain ⟨-, rfl⟩ := h
            exact hg
          | panicked m =>
            simp only [hra] at h
            exact Except.noConfusion h
          | fuel =>
            simp only [hra] at h
            exact Except.noConfusion h
  refine ⟨hflag, ?_, ?_, ?_⟩
  · intro fuel2 infl2
    unfold readAll
    simp [hflag]
  · intro fuel2 infl2 name2 r2
    unfold GetVar
    simp [hflag]
  · intro fuel2 infl2 name2
    unfold GetVar
    simp [hflag]

/-- C8 witness: over the one-matrix stream streamR, a second lookup of R
on the read state is the pure cached lookup. -/
theorem getVar_idempotent_example :
    GetVar 5 inflId fileR1 [82] = .ok (lookupVar fileR1.vars [82], fileR1) :=
  (getVar_idempotent 4 inflId fileR0 [82] (some matR, true) fileR1 rfl).2.2.2 5 inflId [82]
/-- C9: byte-order resolution reads bytes 2-3 of the 4-byte flag field as
a marker: MI (77 73) selects big-endian, IM (73 77) selects little-endian,
and any other pair fails with the format error, never a default order. -/
theorem resolveByteOrder_marker (buf : Bytes) (h4 : buf.length = 4) :
    (buf.drop 2 = [77, 73] → resolveByteOrder buf = .ok .big) ∧
    (buf.drop 2 = [73, 77] → resolveByteOrder buf = .ok .little) ∧
    (buf.drop 2 ≠ [77, 73] → buf.drop 2 ≠ [73, 77] →
        resolveByteOrder buf = .error (.fmtErr "invalid byte order setting")) := by
  match buf, h4 with
  | [a, b, c, d], _ =>
    refine ⟨?_, ?_, ?_⟩
    · intro h1
      obtain ⟨rfl, rfl⟩ : c = 77 ∧ d = 73 := by simpa using h1
      rfl
    · intro h1
      obtain ⟨rfl, rfl⟩ : c = 73 ∧ d = 77 := by simpa using h1
      rfl
    · intro h1 h2
      simp only [resolveByteOrder, List.drop_succ_cons, List.drop_zero, List.take_succ_cons,
        List.take_zero]
      rw [if_neg (by simpa using h1), if_neg (by simpa using h2)]

/-- C9 witness: the marker IM selects little-endian. -/
theorem resolveByteOrder_little_example :
    resolveByteOrder [0, 0, 73, 77] = .ok .little :=
  (resolveByteOrder_marker [0, 0, 73, 77] rfl).2.1 rfl
/-- C10: whenever the byte-order-resolved length half of an 8-byte tag is
nonzero, the tag reader asks for the byte width of the type half before
anything else, so a type half with no fixed width (matrix, compressed, or
any unknown code) aborts with the NumBytes panic rather than a
recoverable format error, and that panic reaches the public lookup
interface unchanged. -/
theorem readTag_variable_width_fatal
    (bo : ByteOrder) (buf rest : Bytes) (t0 l0 typH lenH : Nat) (e : Err)
    (h8 : buf.length = 8)
    (ht0 : t0 = leU16b (buf.getD 0 0) (buf.getD 1 0))
    (hl0 : l0 = leU16b (buf.getD 2 0) (buf.getD 3 0))
    (htyp : typH = if bo = ByteOrder.big then l0 else t0)
    (hlen : lenH = if bo = ByteOrder.big then t0 else l0)
    (hne : lenH ≠ 0)
    (hw : numBytesE typH = .error e) :
    readTag bo (buf ++ rest) = .error e ∧
    (∃ msg, e = .panicked msg) ∧
    (∀ fuel infl vars name,
        GetVar (fuel + 2) infl ⟨bo, buf ++ rest, false, vars⟩ name = .error e) := by
  obtain ⟨msg, rfl⟩ := numBytesE_error typH e hw
  subst ht0 hl0 htyp hlen
  have hb := readAllBytesE_append (p := 8) buf rest h8
  have htag : readTag bo (buf ++ rest) = .error (.panicked msg) := by
    simp only [readTag, hb]
    rw [if_pos hne]
    simp only [hw]
  refine ⟨htag, ⟨msg, rfl⟩, ?_⟩
  intro fuel infl vars name
  have hel : readElement (fuel + 1) infl bo (buf ++ rest) = .error (.panicked msg) := by
    simp only [readElement, htag]
  have hall : readAllElements (fuel + 2) infl bo (buf ++ rest) = .error (.panicked msg) := by
    simp only [readAllElements, hel]
  simp only [GetVar, readAll]
  simp only [Bool.false_eq_true, if_false]
  simp only [hall]

/-- C10 witness: a little-endian tag whose type half is the matrix code
and whose length half is 1 panics in the tag reader. -/
theorem readTag_variable_width_example :
    readTag .little ([14, 0, 1, 0, 0, 0, 0, 0] ++ []) =
      .error (.panicked ("Cannot get NumBytes of variable length type: " ++ dataTypeName 14)) :=
  (readTag_variable_width_fatal .little [14, 0, 1, 0, 0, 0, 0, 0] []
    14 1 14 1 (.panicked ("Cannot get NumBytes of variable length type: " ++ dataTypeName 14))
    rfl rfl rfl rfl rfl (by decide) rfl).1
end Matlab
